import Mathlib

set_option maxRecDepth 4000

/-- Python runtime values as they flow through this service: the JSON
scalars and containers that `json.loads` produces, plus the values the web
framework hands to the generated endpoint (`None` is `null`). -/
inductive PyVal where
  | null
  | bool (b : Bool)
  | int (i : Int)
  | float (q : ℚ)
  | str (s : String)
  | list (xs : List PyVal)
  | dict (fs : List (String × PyVal))

/-- Discriminator for Python's `is None` / `is not None` identity test. -/
def PyVal.isNull : PyVal → Bool
  | .null => true
  | _ => false

/-- Left-pad a numeral string with zeros up to length `k`. -/
def natPad (s : String) (k : Nat) : String :=
  (List.replicate (k - s.length) (Char.ofNat 48)).asString ++ s

/-- Decimal rendering of a nonnegative rational whose denominator divides a
power of ten; stands in for Python's shortest-repr float formatting on the
exactly-representable decimals this development evaluates. -/
def floatReprNonneg (q : ℚ) : String :=
  if q.den = 1 then toString q.num ++ ".0"
  else
    match (List.range 40).find? (fun k => (10 ^ k) % q.den = 0) with
    | some k =>
        let scaled : Int := q.num * ((10 : Int) ^ k / (q.den : Int))
        let ip : Int := scaled / (10 : Int) ^ k
        let fp : Int := scaled % (10 : Int) ^ k
        toString ip ++ "." ++ natPad (toString fp.toNat) k
    | none => toString q.num ++ "/" ++ toString q.den

/-- Python `str` of a float value (modelled on exact decimals). -/
def floatRepr (q : ℚ) : String :=
  if q < 0 then "-" ++ floatReprNonneg (-q) else floatReprNonneg q

mutual

/-- Python `repr()` of a value (string quoting modelled without escaping,
which suffices for the payloads this development evaluates). -/
def pyRepr : PyVal → String
  | .null => "None"
  | .bool true => "True"
  | .bool false => "False"
  | .int i => toString i
  | .float q => floatRepr q
  | .str s => "\x27" ++ s ++ "\x27"
  | .list xs => "[" ++ pyReprList xs ++ "]"
  | .dict fs => "\x7b" ++ pyReprFields fs ++ "\x7d"

/-- Comma-joined `repr`s of list elements. -/
def pyReprList : List PyVal → String
  | [] => ""
  | [x] => pyRepr x
  | x :: y :: xs => pyRepr x ++ ", " ++ pyReprList (y :: xs)

/-- Comma-joined `repr`s of dict entries. -/
def pyReprFields : List (String × PyVal) → String
  | [] => ""
  | [(k, v)] => "\x27" ++ k ++ "\x27: " ++ pyRepr v
  | (k, v) :: f :: fs => "\x27" ++ k ++ "\x27: " ++ pyRepr v ++ ", " ++ pyReprFields (f :: fs)

end

/-- Python `str()` of a value: identical to `repr` except that a top-level
string is returned unquoted.  This is what `str.format` and the template
engine substitute into rendered text. -/
def pyStr (v : PyVal) : String :=
  match v with
  | .str s => s
  | v => pyRepr v

/-- The endpoint's `all_params` dictionary: an insertion-ordered
string-keyed mapping. -/
abbrev Params := List (String × PyVal)

/-- Dictionary lookup. -/
def getP (m : Params) (k : String) : Option PyVal :=
  match m with
  | [] => none
  | (k2, v) :: rest => if k2 = k then some v else getP rest k

/-- Dictionary store: overwrite the existing entry in place, else append
(Python dict assignment semantics). -/
def setP (m : Params) (k : String) (v : PyVal) : Params :=
  match m with
  | [] => [(k, v)]
  | (k2, v2) :: rest => if k2 = k then (k, v) :: rest else (k2, v2) :: setP rest k v

theorem getP_setP_self (m : Params) (k : String) (v : PyVal) :
    getP (setP m k v) k = some v := by
  induction m with
  | nil => simp [setP, getP]
  | cons kv rest ih =>
      by_cases h : kv.1 = k
      · simp [setP, h, getP]
      · simp [setP, h, getP, ih]

theorem getP_setP_ne (m : Params) (k k2 : String) (v : PyVal) (h : k ≠ k2) :
    getP (setP m k v) k2 = getP m k2 := by
  induction m with
  | nil => simp [setP, getP, h]
  | cons kv rest ih =>
      by_cases h2 : kv.1 = k
      · simp [setP, h2, getP, h]
      · simp [setP, h2, getP, ih]

/-- Parameter value type names accepted by the configuration schema. -/
inductive PType where
  | string | integer | float | boolean
deriving DecidableEq

/-- Parameter source locations accepted by the configuration schema. -/
inductive PLoc where
  | query | path | body
deriving DecidableEq

/-- HTTP methods accepted by the configuration schema. -/
inductive HMethod where
  | GET | POST | PUT | DELETE
deriving DecidableEq

/-- One entry of a route's parameter schema (`ParameterConfig` in
`app/config.py`).  Pydantic's `default: Optional[Any] = None` is modelled by
a `PyVal` field whose `null` value means "no default configured". -/
structure ParameterConfig where
  name : String
  type : PType
  required : Bool := true
  location : PLoc := .query
  enum : Option (List String) := none
  min : Option ℚ := none
  max : Option ℚ := none
  default : PyVal := .null

/-- One route descriptor (`RouteConfig` in `app/config.py`). -/
structure RouteConfig where
  path : String
  method : HMethod := .POST
  mqtt_topic : String
  parameters : List ParameterConfig := []
  payload_template : String
  qos : Nat := 0
  retain : Bool := false

/-- A JSON decoding failure: the message kind and the character offset at
which Python's `json` module reports it. -/
structure JsonErr where
  kind : String
  pos : Nat

/-- Whitespace characters skipped by the JSON decoder. -/
def isJsonWs (c : Char) : Bool :=
  c = ' ' || c = '\t' || c = '\n' || c = '\r'

/-- Skip JSON whitespace, tracking the character offset. -/
def skipWs : List Char → Nat → List Char × Nat
  | [], p => ([], p)
  | c :: cs, p => if isJsonWs c then skipWs cs (p + 1) else (c :: cs, p)

/-- Numeric value of a hex digit (0 for non-hex input, which the caller
rules out). -/
def hexVal (c : Char) : Nat :=
  if c.isDigit then c.toNat - 48
  else if 'a' ≤ c ∧ c ≤ 'f' then c.toNat - 87
  else if 'A' ≤ c ∧ c ≤ 'F' then c.toNat - 55
  else 0

/-- Whether a character is a hex digit. -/
def isHexDigit (c : Char) : Bool :=
  c.isDigit || ('a' ≤ c && c ≤ 'f') || ('A' ≤ c && c ≤ 'F')

/-- Decode the body of a JSON string literal (the opening quote at offset
`quotePos` has been consumed; `p` is the offset of the next character). -/
def parseStrBody (quotePos : Nat) : List Char → Nat → String → Except JsonErr (String × List Char × Nat)
  | [], _, _ => .error ⟨"Unterminated string starting at", quotePos⟩
  | '"' :: rest, p, acc => .ok (acc, rest, p + 1)
  | '\\' :: rest, p, acc =>
      match rest with
      | [] => .error ⟨"Unterminated string starting at", quotePos⟩
      | '"' :: rest2 => parseStrBody quotePos rest2 (p + 2) (acc.push '"')
      | '\\' :: rest2 => parseStrBody quotePos rest2 (p + 2) (acc.push '\\')
      | '/' :: rest2 => parseStrBody quotePos rest2 (p + 2) (acc.push '/')
      | 'b' :: rest2 => parseStrBody quotePos rest2 (p + 2) (acc.push (Char.ofNat 8))
      | 'f' :: rest2 => parseStrBody quotePos rest2 (p + 2) (acc.push (Char.ofNat 12))
      | 'n' :: rest2 => parseStrBody quotePos rest2 (p + 2) (acc.push '\n')
      | 'r' :: rest2 => parseStrBody quotePos rest2 (p + 2) (acc.push '\r')
      | 't' :: rest2 => parseStrBody quotePos rest2 (p + 2) (acc.push '\t')
      | 'u' :: h1 :: h2 :: h3 :: h4 :: rest2 =>
          if isHexDigit h1 && isHexDigit h2 && isHexDigit h3 && isHexDigit h4 then
            let code := ((hexVal h1 * 16 + hexVal h2) * 16 + hexVal h3) * 16 + hexVal h4
            parseStrBody quotePos rest2 (p + 6) (acc.push (Char.ofNat code))
          else .error ⟨"Invalid \\uXXXX escape", p + 1⟩
      | _ => .error ⟨"Invalid \\escape", p⟩
  | c :: rest, p, acc =>
      if c.toNat < 32 then .error ⟨"Invalid control character at", p⟩
      else parseStrBody quotePos rest (p + 1) (acc.push c)

/-- Take a maximal run of decimal digits, tracking the offset. -/
def takeDigits : List Char → Nat → List Char × List Char × Nat
  | [], p => ([], [], p)
  | c :: cs, p =>
      if c.isDigit then
        let (ds, rest, p2) := takeDigits cs (p + 1)
        (c :: ds, rest, p2)
      else ([], c :: cs, p)

/-- Natural number denoted by a digit run. -/
def digitsToNat (ds : List Char) : Nat :=
  ds.foldl (fun acc c => acc * 10 + (c.toNat - 48)) 0

/-- Decode a JSON number literal at offset `p`, following the number
regular expression of Python's `json` module: `-?(0|[1-9]\d*)(\.\d+)?([eE][-+]?\d+)?`,
taking the longest match and reporting `Expecting value` at `p` when no
match starts there.  A literal with neither fraction nor exponent decodes
to a Python `int`, otherwise to a `float` (modelled exactly as a rational). -/
def parseNumber (cs : List Char) (p : Nat) : Except JsonErr (PyVal × List Char × Nat) :=
  let (neg, cs1, p1) := match cs with
    | '-' :: rest => (true, rest, p + 1)
    | _ => (false, cs, p)
  match cs1 with
  | '0' :: rest => Except.ok (numFinish neg [( '0' : Char )] rest (p1 + 1))
  | c :: rest =>
      if c.isDigit then
        let (ds, rest2, p2) := takeDigits rest (p1 + 1)
        Except.ok (numFinish neg (c :: ds) rest2 p2)
      else Except.error ⟨"Expecting value", p⟩
  | [] => Except.error ⟨"Expecting value", p⟩
where
  /-- Consume the optional fraction and exponent and build the value. -/
  numFinish (neg : Bool) (ipart : List Char) (cs : List Char) (p : Nat) : PyVal × List Char × Nat :=
    let (fpart, cs2, p2) : List Char × List Char × Nat := match cs with
      | '.' :: c :: rest =>
          if c.isDigit then
            let (ds, r, q) := takeDigits rest (p + 2)
            (c :: ds, r, q)
          else ([], cs, p)
      | _ => ([], cs, p)
    let (hasExp, expNeg, epart, cs3, p3) : Bool × Bool × List Char × List Char × Nat :=
      match cs2 with
      | 'e' :: '-' :: c :: rest =>
          if c.isDigit then
            let (ds, r, q) := takeDigits rest (p2 + 3)
            (true, true, c :: ds, r, q)
          else (false, false, [], cs2, p2)
      | 'E' :: '-' :: c :: rest =>
          if c.isDigit then
            let (ds, r, q) := takeDigits rest (p2 + 3)
            (true, true, c :: ds, r, q)
          else (false, false, [], cs2, p2)
      | 'e' :: '+' :: c :: rest =>
          if c.isDigit then
            let (ds, r, q) := takeDigits rest (p2 + 3)
            (true, false, c :: ds, r, q)
          else (false, false, [], cs2, p2)
      | 'E' :: '+' :: c :: rest =>
          if c.isDigit then
            let (ds, r, q) := takeDigits rest (p2 + 3)
            (true, false, c :: ds, r, q)
          else (false, false, [], cs2, p2)
      | 'e' :: c :: rest =>
          if c.isDigit then
            let (ds, r, q) := takeDigits rest (p2 + 2)
            (true, false, c :: ds, r, q)
          else (false, false, [], cs2, p2)
      | 'E' :: c :: rest =>
          if c.isDigit then
            let (ds, r, q) := takeDigits rest (p2 + 2)
            (true, false, c :: ds, r, q)
          else (false, false, [], cs2, p2)
      | _ => (false, false, [], cs2, p2)
    if fpart.isEmpty ∧ ¬hasExp then
      let n : Int := Int.ofNat (digitsToNat ipart)
      (.int (if neg then -n else n), cs3, p3)
    else
      let mantissa : Int := Int.ofNat (digitsToNat (ipart ++ fpart))
      let base : ℚ := (mantissa : ℚ) / ((10 : ℚ) ^ fpart.length)
      let e : ℤ := if expNeg then -(Int.ofNat (digitsToNat epart)) else Int.ofNat (digitsToNat epart)
      let q : ℚ := base * (10 : ℚ) ^ e
      (.float (if neg then -q else q), cs3, p3)

mutual

/-- Decode one JSON value at offset `p` (leading whitespace already
skipped), mirroring Python's `json.loads` grammar and error reporting. -/
def parseVal : Nat → List Char → Nat → Except JsonErr (PyVal × List Char × Nat)
  | 0, _, p => .error ⟨"Expecting value", p⟩
  | Nat.succ fuel, cs, p =>
      match cs with
      | '"' :: rest =>
          match parseStrBody p rest (p + 1) "" with
          | .error e => .error e
          | .ok (s, rest2, p2) => .ok (.str s, rest2, p2)
      | '\x7b' :: rest =>
          let (cs1, p1) := skipWs rest (p + 1)
          match cs1 with
          | '\x7d' :: rest2 => .ok (.dict [], rest2, p1 + 1)
          | _ => parseMembers fuel cs1 p1 []
      | '[' :: rest =>
          let (cs1, p1) := skipWs rest (p + 1)
          match cs1 with
          | ']' :: rest2 => .ok (.list [], rest2, p1 + 1)
          | _ => parseItems fuel cs1 p1 []
      | 't' :: 'r' :: 'u' :: 'e' :: rest => .ok (.bool true, rest, p + 4)
      | 'f' :: 'a' :: 'l' :: 's' :: 'e' :: rest => .ok (.bool false, rest, p + 5)
      | 'n' :: 'u' :: 'l' :: 'l' :: rest => .ok (.null, rest, p + 4)
      | _ => parseNumber cs p

/-- Decode the members of a JSON object, positioned at a property name.
Duplicate keys overwrite in place, like Python dict assignment. -/
def parseMembers : Nat → List Char → Nat → List (String × PyVal) → Except JsonErr (PyVal × List Char × Nat)
  | 0, _, p, _ => .error ⟨"Expecting value", p⟩
  | Nat.succ fuel, cs, p, acc =>
      match cs with
      | '"' :: rest =>
          match parseStrBody p rest (p + 1) "" with
          | .error e => .error e
          | .ok (key, rest2, p2) =>
              let (cs3, p3) := skipWs rest2 p2
              match cs3 with
              | ':' :: rest4 =>
                  let (cs5, p5) := skipWs rest4 (p3 + 1)
                  match parseVal fuel cs5 p5 with
                  | .error e => .error e
                  | .ok (v, rest6, p6) =>
                      let acc2 := setP acc key v
                      let (cs7, p7) := skipWs rest6 p6
                      match cs7 with
                      | ',' :: rest8 =>
                          let (cs9, p9) := skipWs rest8 (p7 + 1)
                          parseMembers fuel cs9 p9 acc2
                      | '\x7d' :: rest8 => .ok (.dict acc2, rest8, p7 + 1)
                      | _ => .error ⟨"Expecting \x27,\x27 delimiter", p7⟩
              | _ => .error ⟨"Expecting \x27:\x27 delimiter", p3⟩
      | _ => .error ⟨"Expecting property name enclosed in double quotes", p⟩

/-- Decode the items of a JSON array, positioned at a value. -/
def parseItems : Nat → List Char → Nat → List PyVal → Except JsonErr (PyVal × List Char × Nat)
  | 0, _, p, _ => .error ⟨"Expecting value", p⟩
  | Nat.succ fuel, cs, p, acc =>
      match parseVal fuel cs p with
      | .error e => .error e
      | .ok (v, rest, p2) =>
          let (cs3, p3) := skipWs rest p2
          match cs3 with
          | ',' :: rest4 =>
              let (cs5, p5) := skipWs rest4 (p3 + 1)
              parseItems fuel cs5 p5 (acc ++ [v])
          | ']' :: rest4 => .ok (.list (acc ++ [v]), rest4, p3 + 1)
          | _ => .error ⟨"Expecting \x27,\x27 delimiter", p3⟩

end

/-- Index of the last newline among the first `n` characters, if any. -/
def lastNlAux : List Char → Nat → Option Nat → Option Nat
  | [], _, best => best
  | c :: cs, i, best => lastNlAux cs (i + 1) (if c = '\n' then some i else best)

/-- Format a JSON decoding failure the way Python's `JSONDecodeError`
stringifies: `kind: line L column C (char P)`. -/
def jsonErrFormat (s : String) (e : JsonErr) : String :=
  let before := s.toList.take e.pos
  let line := 1 + (before.filter (fun c => c = '\n')).length
  let col := match lastNlAux before 0 none with
    | none => e.pos + 1
    | some i => e.pos - i
  e.kind ++ ": line " ++ toString line ++ " column " ++ toString col ++
    " (char " ++ toString e.pos ++ ")"

/-- Python `json.loads`: decode a full document, rejecting trailing data. -/
def pyJsonLoads (s : String) : Except JsonErr PyVal :=
  let cs := s.toList
  let (cs1, p1) := skipWs cs 0
  match parseVal (cs.length + 1) cs1 p1 with
  | .error e => .error e
  | .ok (v, rest, p2) =>
      let (rest2, p3) := skipWs rest p2
      if rest2.isEmpty then .ok v else .error ⟨"Extra data", p3⟩

/-- Python `json.loads` with the failure already stringified, matching the
text that an f-string interpolation of the raised exception produces. -/
def pyJsonLoadsMsg (s : String) : Except String PyVal :=
  match pyJsonLoads s with
  | .ok v => .ok v
  | .error e => .error (jsonErrFormat s e)

/-- Whether a character can start a Python identifier (ASCII fragment). -/
def isIdentStart (c : Char) : Bool :=
  c.isAlpha || c = '_'

/-- Whether a character can continue a Python identifier (ASCII fragment). -/
def isIdentChar (c : Char) : Bool :=
  c.isAlphanum || c = '_'

/-- Python `str.isidentifier` on the ASCII names this configuration uses. -/
def pyIsIdentifier (s : String) : Bool :=
  match s.toList with
  | [] => false
  | c :: cs => isIdentStart c && cs.all isIdentChar

/-- Substring test on character lists (Python's `needle in haystack`). -/
def hasSubstr : List Char → List Char → Bool
  | _, [] => true
  | [], _ :: _ => false
  | c :: cs, p :: ps => List.isPrefixOf (p :: ps) (c :: cs) || hasSubstr cs (p :: ps)

/-- Failure of `str.format`: a missing replacement key (Python `KeyError`)
or a malformed format string (Python `ValueError`). -/
inductive FmtErr where
  | keyError (name : String)
  | valueError (msg : String)
deriving DecidableEq

/-- Python `str.format(**params)` on the simple `\x7bname\x7d` placeholders the
repository's topic templates use: fields are evaluated left to right and the
first name missing from the mapping raises `KeyError`; `\x7b\x7b`/`\x7d\x7d` are brace
escapes; a field that is not a plain identifier, or an unbalanced brace, is
outside the modelled fragment and reported as a `ValueError`. -/
def strFormatChars : Nat → List Char → Params → Except FmtErr (List Char)
  | 0, _, _ => .error (.valueError "format fuel exhausted")
  | Nat.succ fuel, cs, m =>
      match cs with
      | [] => .ok []
      | '\x7b' :: '\x7b' :: rest =>
          match strFormatChars fuel rest m with
          | .error e => .error e
          | .ok r => .ok ('\x7b' :: r)
      | '\x7d' :: '\x7d' :: rest =>
          match strFormatChars fuel rest m with
          | .error e => .error e
          | .ok r => .ok ('\x7d' :: r)
      | '\x7b' :: rest =>
          let field := rest.takeWhile (fun c => c ≠ '\x7d')
          let rest2 := rest.dropWhile (fun c => c ≠ '\x7d')
          match rest2 with
          | [] => .error (.valueError "expected \x27\x7d\x27 before end of string")
          | _ :: rest3 =>
              let name := field.asString
              if pyIsIdentifier name then
                match getP m name with
                | some v =>
                    match strFormatChars fuel rest3 m with
                    | .error e => .error e
                    | .ok r => .ok ((pyStr v).toList ++ r)
                | none => .error (.keyError name)
              else .error (.valueError ("unsupported replacement field " ++ name))
      | '\x7d' :: _ => .error (.valueError "Single \x27\x7d\x27 encountered in format string")
      | c :: rest =>
          match strFormatChars fuel rest m with
          | .error e => .error e
          | .ok r => .ok (c :: r)

/-- Render a topic template with `str.format` semantics. -/
def strFormat (t : String) (m : Params) : Except FmtErr String :=
  match strFormatChars (t.length + 1) t.toList m with
  | .error e => .error e
  | .ok r => .ok r.asString

/-- Split a template at the first `\x7d\x7d` delimiter. -/
def splitClose : List Char → Option (List Char × List Char)
  | [] => none
  | '\x7d' :: '\x7d' :: rest => some ([], rest)
  | c :: rest =>
      match splitClose rest with
      | none => none
      | some (a, b) => some (c :: a, b)

/-- Trim surrounding whitespace from a character list. -/
def trimChars (cs : List Char) : List Char :=
  ((cs.dropWhile isJsonWs).reverse.dropWhile isJsonWs).reverse

/-- The Jinja-style payload rendering the endpoint performs, on the fragment
the repository's payload templates use: `\x7b\x7bname\x7d\x7d` substitutes `str(value)`
from the resolved set, an undefined name renders as the empty string (the
default `Undefined`), and `\x7b\x7bnow()\x7d\x7d` substitutes the timestamp the context
installs.  Statement blocks and richer expressions are outside the modelled
fragment and reported as template errors, as is an unterminated `\x7b\x7b`. -/
def jinjaChars : Nat → List Char → Params → String → Except String (List Char)
  | 0, _, _, _ => .error "template fuel exhausted"
  | Nat.succ fuel, cs, m, nowStr =>
      match cs with
      | [] => .ok []
      | '\x7b' :: '\x7b' :: rest =>
          match splitClose rest with
          | none => .error "unexpected end of template"
          | some (inner, rest2) =>
              let expr := (trimChars inner).asString
              let sub : Except String (List Char) :=
                if expr = "now()" then .ok nowStr.toList
                else if pyIsIdentifier expr then
                  match getP m expr with
                  | some v => .ok (pyStr v).toList
                  | none => .ok []
                else .error ("unexpected expression " ++ expr)
              match sub with
              | .error e => .error e
              | .ok s =>
                  match jinjaChars fuel rest2 m nowStr with
                  | .error e => .error e
                  | .ok r => .ok (s ++ r)
      | '\x7b' :: '%' :: _ => .error "unsupported statement block"
      | c :: rest =>
          match jinjaChars fuel rest m nowStr with
          | .error e => .error e
          | .ok r => .ok (c :: r)

/-- Render a payload template. -/
def jinjaRender (t : String) (m : Params) (nowStr : String) : Except String String :=
  match jinjaChars (t.length + 1) t.toList m nowStr with
  | .error e => .error e
  | .ok r => .ok r.asString

/-- Python `str.replace` on character lists: replace the leftmost
occurrence of the pattern, continue after the inserted replacement
(non-overlapping, left to right). -/
def replaceAux : Nat → List Char → List Char → List Char → List Char
  | 0, _, _, s => s
  | Nat.succ fuel, pat, rep, s =>
      match s with
      | [] => []
      | c :: cs =>
          if List.isPrefixOf pat (c :: cs) then
            rep ++ replaceAux fuel pat rep (List.drop pat.length (c :: cs))
          else c :: replaceAux fuel pat rep cs

/-- Python `str.replace(pat, rep)` (all occurrences). -/
def pyReplace (s pat rep : String) : String :=
  (replaceAux (s.length + 1) pat.toList rep.toList s.toList).asString

/-- The boolean representation fix-up the endpoint applies to the rendered
payload text before JSON validation: a plain textual replacement of the two
exact sequences, in this order. -/
def fixBooleans (payload : String) : String :=
  pyReplace (pyReplace payload ": True" ": true") ": False" ": false"

/-- An HTTP error response: status code and detail message. -/
structure HttpErr where
  status : Nat
  detail : String
deriving DecidableEq

/-- The inbound request surface the endpoint consumes: matched path values
and query values already converted by the framework, the raw body text, and
the timestamp the template context's `now()` returns for this request. -/
structure RequestInput where
  pathVals : Params
  queryVals : Params
  body : String
  nowStr : String

/-- Query-parameter assembly the framework performs for the generated
signature: each declared query parameter was registered as
`Query(...)` when required and `Query(default=param.default)` otherwise, so
a required name missing from the query string is rejected before the
endpoint runs, and an absent optional name is passed as its configured
default — `None` when no default is configured. -/
def kwargsAddQuery : List ParameterConfig → Params → Params → Except HttpErr Params
  | [], _, acc => .ok acc
  | p :: ps, qv, acc =>
      match getP qv p.name with
      | some v => kwargsAddQuery ps qv (setP acc p.name v)
      | none =>
          if p.required then .error ⟨422, "Field required: " ++ p.name⟩
          else kwargsAddQuery ps qv (setP acc p.name p.default)

/-- Path-parameter assembly: every declared path parameter was registered
as `Path(...)`, and route matching supplies a value for each. -/
def kwargsAddPath : List ParameterConfig → Params → Params → Except HttpErr Params
  | [], _, acc => .ok acc
  | p :: ps, pv, acc =>
      match getP pv p.name with
      | some v => kwargsAddPath ps pv (setP acc p.name v)
      | none => .error ⟨422, "Field required: " ++ p.name⟩

/-- The keyword arguments the framework passes to the generated endpoint. -/
def fastapiKwargs (cfg : RouteConfig) (req : RequestInput) : Except HttpErr Params :=
  match kwargsAddQuery (cfg.parameters.filter (fun p => decide (p.location = PLoc.query))) req.queryVals [] with
  | .error e => .error e
  | .ok a => kwargsAddPath (cfg.parameters.filter (fun p => decide (p.location = PLoc.path))) req.pathVals a

/-- Copy declared parameters present in `kwargs` into the resolved set (the
path and query loops of the endpoint). -/
def addFromKwargs : List ParameterConfig → Params → Params → Params
  | [], _, m => m
  | p :: ps, kw, m =>
      match getP kw p.name with
      | some v => addFromKwargs ps kw (setP m p.name v)
      | none => addFromKwargs ps kw m

/-- Python `name in body_data` for the parsed body: key membership for a
dict, string-element membership for a list, substring for a string, and a
`TypeError` for non-container values. -/
def bodyContains (bd : PyVal) (name : String) : Except String Bool :=
  match bd with
  | .dict fs => .ok (getP fs name).isSome
  | .list xs => .ok (xs.any (fun v => match v with | .str s => s = name | _ => false))
  | .str s => .ok (hasSubstr s.toList name.toList)
  | .int _ => .error "argument of type \x27int\x27 is not iterable"
  | .float _ => .error "argument of type \x27float\x27 is not iterable"
  | .bool _ => .error "argument of type \x27bool\x27 is not iterable"
  | .null => .error "argument of type \x27NoneType\x27 is not iterable"

/-- Python `body_data[param.name]`, reached only when membership held:
value lookup for a dict, a `TypeError` for list or string subscripts. -/
def bodyIndex (bd : PyVal) (name : String) : Except String PyVal :=
  match bd with
  | .dict fs =>
      match getP fs name with
      | some v => .ok v
      | none => .error ("missing key " ++ name)
  | .list _ => .error "list indices must be integers or slices, not str"
  | .str _ => .error "string indices must be integers"
  | _ => .error "value is not subscriptable"

/-- The body-parameter loop of the endpoint: copy each declared key present
in the parsed body, else populate an optional parameter's configured
default when one is set. -/
def bodyLoop : List ParameterConfig → PyVal → Params → Except HttpErr Params
  | [], _, m => .ok m
  | p :: ps, bd, m =>
      match bodyContains bd p.name with
      | .error msg => .error ⟨500, "Internal error: " ++ msg⟩
      | .ok true =>
          match bodyIndex bd p.name with
          | .error msg => .error ⟨500, "Internal error: " ++ msg⟩
          | .ok v => bodyLoop ps bd (setP m p.name v)
      | .ok false =>
          if p.required = false ∧ p.default.isNull = false then
            bodyLoop ps bd (setP m p.name p.default)
          else bodyLoop ps bd m

/-- The body step of the endpoint: attempted only when body parameters are
declared; a body that fails to parse as JSON is a 400 client error when
some body parameter is required and is otherwise ignored. -/
def bodyStep (bodyParams : List ParameterConfig) (body : String) (m : Params) : Except HttpErr Params :=
  if bodyParams.isEmpty then .ok m
  else
    match pyJsonLoads body with
    | .error _ =>
        if bodyParams.any (fun p => p.required) then
          .error ⟨400, "Invalid JSON in request body"⟩
        else .ok m
    | .ok bd => bodyLoop bodyParams bd m

/-- The defaults step of the endpoint: populate each still-missing optional
parameter whose configured default is not `None`. -/
def defaultsStep : List ParameterConfig → Params → Params
  | [], m => m
  | p :: ps, m =>
      if (getP m p.name).isNone ∧ p.required = false ∧ p.default.isNull = false then
        defaultsStep ps (setP m p.name p.default)
      else defaultsStep ps m

/-- The parameter-collection phase of the endpoint: path values, query
values, body values, then defaults, producing the `all_params` set. -/
def resolveParams (cfg : RouteConfig) (kwargs : Params) (body : String) : Except HttpErr Params :=
  let pathParams := cfg.parameters.filter (fun p => decide (p.location = PLoc.path))
  let queryParams := cfg.parameters.filter (fun p => decide (p.location = PLoc.query))
  let bodyParams := cfg.parameters.filter (fun p => decide (p.location = PLoc.body))
  let m1 := addFromKwargs pathParams kwargs []
  let m2 := addFromKwargs queryParams kwargs m1
  match bodyStep bodyParams body m2 with
  | .error e => .error e
  | .ok m3 => .ok (defaultsStep cfg.parameters m3)

/-- Numeric view of a value for Python's comparison operators: ints,
floats, and bools compare numerically; other types raise `TypeError`. -/
def toRatNum : PyVal → Option ℚ
  | .int i => some (i : ℚ)
  | .float q => some q
  | .bool b => some (if b then 1 else 0)
  | _ => none

/-- Python type name used in `TypeError` messages. -/
def pyTypeName : PyVal → String
  | .null => "NoneType"
  | .bool _ => "bool"
  | .int _ => "int"
  | .float _ => "float"
  | .str _ => "str"
  | .list _ => "list"
  | .dict _ => "dict"

/-- `TypeError` text for an unsupported `<` or `>` comparison. -/
def cmpTypeErrMsg (op : String) (v : PyVal) : String :=
  "\x27" ++ op ++ "\x27 not supported between instances of \x27" ++ pyTypeName v ++
    "\x27 and \x27float\x27"

/-- Comma-space join of the allowed enum values (Python `", ".join`). -/
def joinComma : List String → String
  | [] => ""
  | [s] => s
  | s :: t :: ts => s ++ ", " ++ joinComma (t :: ts)

/-- Python `value not in param.enum` negated: the enum list holds strings,
so only an equal string is a member. -/
def enumMember (v : PyVal) (es : List String) : Bool :=
  match v with
  | .str s => es.any (fun e => e = s)
  | _ => false

/-- The max-bound check of the validation loop. -/
def checkMax (p : ParameterConfig) (v : PyVal) : Except HttpErr Unit :=
  match p.max with
  | some mx =>
      match toRatNum v with
      | none => .error ⟨500, "Internal error: " ++ cmpTypeErrMsg ">" v⟩
      | some q =>
          if mx < q then
            .error ⟨422, "Value for " ++ p.name ++ " must be at most " ++ floatRepr mx⟩
          else .ok ()
  | none => .ok ()

/-- The min- and max-bound checks of the validation loop, applied only to
parameters declared integer or float. -/
def checkBounds (p : ParameterConfig) (v : PyVal) : Except HttpErr Unit :=
  if p.type = PType.integer ∨ p.type = PType.float then
    match p.min with
    | some mn =>
        match toRatNum v with
        | none => .error ⟨500, "Internal error: " ++ cmpTypeErrMsg "<" v⟩
        | some q =>
            if q < mn then
              .error ⟨422, "Value for " ++ p.name ++ " must be at least " ++ floatRepr mn⟩
            else checkMax p v
    | none => checkMax p v
  else .ok ()

/-- The per-entry validation the loop applies to each populated parameter:
enum membership first, then numeric bounds. -/
def validateOne (p : ParameterConfig) (v : PyVal) : Except HttpErr Unit :=
  match p.enum with
  | some es =>
      if enumMember v es then checkBounds p v
      else .error ⟨422, "Invalid value for " ++ p.name ++ ". Allowed values: " ++ joinComma es⟩
  | none => checkBounds p v

/-- The validation pass of the endpoint, over every populated entry in
schema order; the first violation is raised. -/
def validateParams : List ParameterConfig → Params → Except HttpErr Unit
  | [], _ => .ok ()
  | p :: ps, m =>
      match getP m p.name with
      | some v =>
          match validateOne p v with
          | .error e => .error e
          | .ok () => validateParams ps m
      | none => validateParams ps m

/-- One publish handed to the MQTT manager. -/
structure PublishCall where
  topic : String
  payload : String
  qos : Nat
  retain : Bool
deriving DecidableEq

/-- The structured success response: status `published`, the rendered
topic, and the parsed JSON payload object. -/
structure SuccessResp where
  topic : String
  payload : PyVal

/-- What one request produced: the HTTP-shaped response and the list of
publish calls handed to the broker manager. -/
structure DispatchResult where
  response : Except HttpErr SuccessResp
  published : List PublishCall

/-- Topic rendering, payload rendering, boolean fix-up and JSON validation,
with the endpoint's exception mapping: a `KeyError` from topic formatting
becomes a 400 naming the missing key, a malformed format string or a
template failure reaches the generic internal-error handler, and a payload
that is not valid JSON becomes a 500 whose detail interpolates the decoder
exception. -/
def renderSteps (cfg : RouteConfig) (m : Params) (nowStr : String) : Except HttpErr (String × String × PyVal) :=
  match strFormat cfg.mqtt_topic m with
  | .error (.keyError n) => .error ⟨400, "Missing required parameter: \x27" ++ n ++ "\x27"⟩
  | .error (.valueError msg) => .error ⟨500, "Internal error: " ++ msg⟩
  | .ok topic =>
      match jinjaRender cfg.payload_template m nowStr with
      | .error msg => .error ⟨500, "Internal error: " ++ msg⟩
      | .ok rendered =>
          let payload := fixBooleans rendered
          match pyJsonLoadsMsg payload with
          | .error msg => .error ⟨500, "Invalid JSON in payload template: " ++ msg⟩
          | .ok pj => .ok (topic, payload, pj)

/-- Everything the endpoint does before the publish call: parameter
resolution, validation, and rendering. -/
def preparePublish (cfg : RouteConfig) (kwargs : Params) (body nowStr : String) : Except HttpErr (String × String × PyVal) :=
  match resolveParams cfg kwargs body with
  | .error e => .error e
  | .ok m =>
      match validateParams cfg.parameters m with
      | .error e => .error e
      | .ok () => renderSteps cfg m nowStr

/-- One full request through the generated endpoint: the framework
assembles the keyword arguments, the endpoint prepares topic and payload,
and on success exactly one publish call is handed to the manager —
`pubFail` carries the exception message when that call raises, which the
generic handler turns into a 500. -/
def handle (cfg : RouteConfig) (req : RequestInput) (pubFail : Option String) : DispatchResult :=
  match fastapiKwargs cfg req with
  | .error e => ⟨.error e, []⟩
  | .ok kw =>
      match preparePublish cfg kw req.body req.nowStr with
      | .error e => ⟨.error e, []⟩
      | .ok (topic, payload, pj) =>
          let call : PublishCall := ⟨topic, payload, cfg.qos, cfg.retain⟩
          match pubFail with
          | some msg => ⟨.error ⟨500, "Internal error: " ++ msg⟩, [call]⟩
          | none => ⟨.ok ⟨topic, pj⟩, [call]⟩

/-- The broker connection manager (`MQTTManager` in `app/mqtt_client.py`):
its only state is the optional client object. -/
structure MQTTManager where
  client : Option Unit

/-- `MQTTManager.connect` creates a client object and stores it. -/
def MQTTManager.connect (_m : MQTTManager) : MQTTManager :=
  ⟨some ()⟩

/-- `MQTTManager.disconnect` exits the client context when one exists but
never clears the stored `client` attribute. -/
def MQTTManager.disconnect (m : MQTTManager) : MQTTManager :=
  m

/-- The `is_connected` property: true exactly when a client object has been
stored. -/
def MQTTManager.isConnectedProp (m : MQTTManager) : Bool :=
  m.client.isSome

/-- Lifecycle operations callable on the manager after construction. -/
inductive MqttOp where
  | connect | disconnect

/-- Apply one lifecycle operation. -/
def applyMqttOp (m : MQTTManager) : MqttOp → MQTTManager
  | .connect => m.connect
  | .disconnect => m.disconnect

/-- Apply a sequence of lifecycle operations. -/
def applyMqttOps (m : MQTTManager) : List MqttOp → MQTTManager
  | [] => m
  | op :: ops => applyMqttOps (applyMqttOp m op) ops

/-- The health endpoint's `mqtt_connected` boolean from `app/main.py`. -/
def healthConnected (m : Option MQTTManager) : Bool :=
  match m with
  | none => false
  | some mg => mg.isConnectedProp

/-- One route registered on the router: the method and path pattern it was
registered under and the captured descriptor. -/
structure RegisteredRoute where
  method : HMethod
  path : String
  config : RouteConfig

/-- `RouteBuilder._create_route`, as the signature synthesis constrains it:
constructing the `inspect.Parameter` list raises `ValueError` when a
declared query or path parameter name is not a valid Python identifier, and
rebuilding the signature raises when such a name collides with the fixed
`request`/`api_key` parameters; otherwise the handler is registered.  The
router itself accepts any (method, path) pair — duplicates included. -/
def createRoute (cfg : RouteConfig) : Except String RegisteredRoute :=
  let sigParams := cfg.parameters.filter
    (fun p => decide (p.location = PLoc.query) || decide (p.location = PLoc.path))
  match sigParams.find? (fun p => !pyIsIdentifier p.name) with
  | some p => .error ("\x27" ++ p.name ++ "\x27 is not a valid parameter name")
  | none =>
      if sigParams.any (fun p => p.name == "request" || p.name == "api_key") then
        .error "duplicate parameter name in signature"
      else .ok ⟨cfg.method, cfg.path, cfg⟩

/-- `RouteBuilder.build_routes`: registers each descriptor in order inside
a plain loop with no exception handling, so the first failing descriptor
aborts the loop and the exception escapes.  The result is the list of
routes actually registered on the router together with the escaped error,
if any. -/
def buildRoutes : List RouteConfig → List RegisteredRoute → List RegisteredRoute × Option String
  | [], acc => (acc, none)
  | cfg :: rest, acc =>
      match createRoute cfg with
      | .error e => (acc, some e)
      | .ok r => buildRoutes rest (acc ++ [r])

theorem getP_setP (m : Params) (k k2 : String) (v : PyVal) :
    getP (setP m k2 v) k = if k2 = k then some v else getP m k := by
  by_cases h : k2 = k
  · subst h; simp [getP_setP_self]
  · simp [h, getP_setP_ne m k2 k v h]

theorem setP_isSome (m : Params) (k k2 : String) (v : PyVal)
    (h : (getP m k).isSome) : (getP (setP m k2 v) k).isSome := by
  rw [getP_setP]
  by_cases hk : k2 = k <;> simp [hk, h]

theorem addFromKwargs_mono (ps : List ParameterConfig) (kw : Params) (m : Params) (k : String)
    (h : (getP m k).isSome) : (getP (addFromKwargs ps kw m) k).isSome := by
  induction ps generalizing m with
  | nil => simpa [addFromKwargs] using h
  | cons p ps ih =>
      simp only [addFromKwargs]
      cases hkw : getP kw p.name with
      | none => exact ih m h
      | some v => exact ih _ (setP_isSome _ _ _ _ h)

theorem addFromKwargs_present (ps : List ParameterConfig) (kw : Params) (m : Params)
    (p : ParameterConfig) (hp : p ∈ ps) (h : (getP kw p.name).isSome) :
    (getP (addFromKwargs ps kw m) p.name).isSome := by
  induction ps generalizing m with
  | nil => cases hp
  | cons p1 ps ih =>
      simp only [addFromKwargs]
      rcases List.mem_cons.mp hp with h1 | h1
      · subst h1
        cases hkw : getP kw p.name with
        | none => rw [hkw] at h; cases h
        | some v => exact addFromKwargs_mono _ _ _ _ (by simp [getP_setP_self])
      · cases hkw : getP kw p1.name with
        | none => exact ih m h1
        | some v => exact ih _ h1

theorem addFromKwargs_src (ps : List ParameterConfig) (kw : Params) (m : Params) (k : String)
    (v : PyVal) (h : getP (addFromKwargs ps kw m) k = some v) :
    getP m k = some v ∨ getP kw k = some v := by
  induction ps generalizing m with
  | nil => left; simpa [addFromKwargs] using h
  | cons p ps ih =>
      simp only [addFromKwargs] at h
      cases hkw : getP kw p.name with
      | none => rw [hkw] at h; exact ih _ h
      | some w =>
          rw [hkw] at h
          rcases ih _ h with h2 | h2
          · rw [getP_setP] at h2
            by_cases hk : p.name = k
            · right; rw [hk] at hkw; rw [if_pos hk] at h2; rw [hkw, h2]
            · rw [if_neg hk] at h2; left; exact h2
          · right; exact h2

theorem addFromKwargs_skip (ps : List ParameterConfig) (kw : Params) (m : Params) (k : String)
    (h : ∀ p2 ∈ ps, p2.name ≠ k) :
    getP (addFromKwargs ps kw m) k = getP m k := by
  induction ps generalizing m with
  | nil => simp [addFromKwargs]
  | cons p ps ih =>
      simp only [addFromKwargs]
      have hp : p.name ≠ k := h p (List.mem_cons_self p ps)
      have ht : ∀ p2 ∈ ps, p2.name ≠ k := fun q hq => h q (List.mem_cons_of_mem _ hq)
      cases hkw : getP kw p.name with
      | none => exact ih m ht
      | some w => rw [ih _ ht, getP_setP, if_neg hp]

theorem addFromKwargs_sets (l1 l2 : List ParameterConfig) (p : ParameterConfig)
    (kw : Params) (m : Params) (v : PyVal)
    (hl2 : ∀ p2 ∈ l2, p2.name ≠ p.name) (hkw : getP kw p.name = some v) :
    getP (addFromKwargs (l1 ++ p :: l2) kw m) p.name = some v := by
  induction l1 generalizing m with
  | nil =>
      simp only [List.nil_append, addFromKwargs, hkw]
      rw [addFromKwargs_skip _ _ _ _ hl2, getP_setP_self]
  | cons p1 l1 ih =>
      simp only [List.cons_append, addFromKwargs]
      cases hk1 : getP kw p1.name with
      | none => exact ih m
      | some w => exact ih _

theorem kwargsAddQuery_mono (ps : List ParameterConfig) (qv : Params) (acc kw : Params)
    (k : String) (h : kwargsAddQuery ps qv acc = .ok kw) (hs : (getP acc k).isSome) :
    (getP kw k).isSome := by
  induction ps generalizing acc with
  | nil =>
      simp only [kwargsAddQuery] at h
      injection h with h2
      rw [← h2]; exact hs
  | cons p ps ih =>
      simp only [kwargsAddQuery] at h
      cases hq : getP qv p.name with
      | some v =>
          rw [hq] at h
          exact ih _ h (setP_isSome _ _ _ _ hs)
      | none =>
          rw [hq] at h
          cases hr : p.required with
          | true => rw [hr] at h; simp at h
          | false =>
              rw [hr] at h; simp only [Bool.false_eq_true, if_false] at h
              exact ih _ h (setP_isSome _ _ _ _ hs)

theorem kwargsAddQuery_present (ps : List ParameterConfig) (qv : Params) (acc kw : Params)
    (p : ParameterConfig) (hp : p ∈ ps) (h : kwargsAddQuery ps qv acc = .ok kw) :
    (getP kw p.name).isSome := by
  induction ps generalizing acc with
  | nil => cases hp
  | cons p1 ps ih =>
      simp only [kwargsAddQuery] at h
      rcases List.mem_cons.mp hp with h1 | h1
      · subst h1
        cases hq : getP qv p.name with
        | some v =>
            rw [hq] at h
            exact kwargsAddQuery_mono _ _ _ _ _ h (by simp [getP_setP_self])
        | none =>
            rw [hq] at h
            cases hr : p.required with
            | true => rw [hr] at h; simp at h
            | false =>
                rw [hr] at h; simp only [Bool.false_eq_true, if_false] at h
                exact kwargsAddQuery_mono _ _ _ _ _ h (by simp [getP_setP_self])
      · cases hq : getP qv p1.name with
        | some v => rw [hq] at h; exact ih _ h1 h
        | none =>
            rw [hq] at h
            cases hr : p1.required with
            | true => rw [hr] at h; simp at h
            | false =>
                rw [hr] at h; simp only [Bool.false_eq_true, if_false] at h
                exact ih _ h1 h

theorem kwargsAddQuery_skip (ps : List ParameterConfig) (qv : Params) (acc kw : Params)
    (k : String) (hn : ∀ p2 ∈ ps, p2.name ≠ k)
    (h : kwargsAddQuery ps qv acc = .ok kw) : getP kw k = getP acc k := by
  induction ps generalizing acc with
  | nil =>
      simp only [kwargsAddQuery] at h
      injection h with h2
      rw [← h2]
  | cons p ps ih =>
      simp only [kwargsAddQuery] at h
      have hp : p.name ≠ k := hn p (List.mem_cons_self p ps)
      have ht : ∀ p2 ∈ ps, p2.name ≠ k := fun q hq => hn q (List.mem_cons_of_mem _ hq)
      cases hq : getP qv p.name with
      | some v =>
          rw [hq] at h
          rw [ih _ ht h, getP_setP, if_neg hp]
      | none =>
          rw [hq] at h
          cases hr : p.required with
          | true => rw [hr] at h; simp at h
          | false =>
              rw [hr] at h; simp only [Bool.false_eq_true, if_false] at h
              rw [ih _ ht h, getP_setP, if_neg hp]

theorem kwargsAddQuery_null (l1 l2 : List ParameterConfig) (p : ParameterConfig)
    (qv : Params) (acc kw : Params)
    (hl2 : ∀ p2 ∈ l2, p2.name ≠ p.name) (hq : getP qv p.name = none)
    (hr : p.required = false)
    (h : kwargsAddQuery (l1 ++ p :: l2) qv acc = .ok kw) :
    getP kw p.name = some p.default := by
  induction l1 generalizing acc with
  | nil =>
      simp only [List.nil_append, kwargsAddQuery] at h
      rw [hq, hr] at h
      simp only [Bool.false_eq_true, if_false] at h
      rw [kwargsAddQuery_skip _ _ _ _ _ hl2 h, getP_setP_self]
  | cons p1 l1 ih =>
      simp only [List.cons_append, kwargsAddQuery] at h
      cases hq1 : getP qv p1.name with
      | some v => rw [hq1] at h; exact ih _ h
      | none =>
          rw [hq1] at h
          cases hr1 : p1.required with
          | true => rw [hr1] at h; simp at h
          | false =>
              rw [hr1] at h; simp only [Bool.false_eq_true, if_false] at h
              exact ih _ h

theorem kwargsAddPath_mono (ps : List ParameterConfig) (pv : Params) (acc kw : Params)
    (k : String) (h : kwargsAddPath ps pv acc = .ok kw) (hs : (getP acc k).isSome) :
    (getP kw k).isSome := by
  induction ps generalizing acc with
  | nil =>
      simp only [kwargsAddPath] at h
      injection h with h2
      rw [← h2]; exact hs
  | cons p ps ih =>
      simp only [kwargsAddPath] at h
      cases hq : getP pv p.name with
      | some v =>
          rw [hq] at h
          exact ih _ h (setP_isSome _ _ _ _ hs)
      | none => rw [hq] at h; simp at h

theorem kwargsAddPath_present (ps : List ParameterConfig) (pv : Params) (acc kw : Params)
    (p : ParameterConfig) (hp : p ∈ ps) (h : kwargsAddPath ps pv acc = .ok kw) :
    (getP kw p.name).isSome := by
  induction ps generalizing acc with
  | nil => cases hp
  | cons p1 ps ih =>
      simp only [kwargsAddPath] at h
      rcases List.mem_cons.mp hp with h1 | h1
      · subst h1
        cases hq : getP pv p.name with
        | some v =>
            rw [hq] at h
            exact kwargsAddPath_mono _ _ _ _ _ h (by simp [getP_setP_self])
        | none => rw [hq] at h; simp at h
      · cases hq : getP pv p1.name with
        | some v => rw [hq] at h; exact ih _ h1 h
        | none => rw [hq] at h; simp at h

theorem kwargsAddPath_skip (ps : List ParameterConfig) (pv : Params) (acc kw : Params)
    (k : String) (hn : ∀ p2 ∈ ps, p2.name ≠ k)
    (h : kwargsAddPath ps pv acc = .ok kw) : getP kw k = getP acc k := by
  induction ps generalizing acc with
  | nil =>
      simp only [kwargsAddPath] at h
      injection h with h2
      rw [← h2]
  | cons p ps ih =>
      simp only [kwargsAddPath] at h
      have hp : p.name ≠ k := hn p (List.mem_cons_self p ps)
      have ht : ∀ p2 ∈ ps, p2.name ≠ k := fun q hq => hn q (List.mem_cons_of_mem _ hq)
      cases hq : getP pv p.name with
      | some v =>
          rw [hq] at h
          rw [ih _ ht h, getP_setP, if_neg hp]
      | none => rw [hq] at h; simp at h

theorem bodyLoop_mono (ps : List ParameterConfig) (bd : PyVal) (m m2 : Params) (k : String)
    (h : bodyLoop ps bd m = .ok m2) (hs : (getP m k).isSome) : (getP m2 k).isSome := by
  induction ps generalizing m with
  | nil =>
      simp only [bodyLoop] at h
      injection h with h2
      rw [← h2]; exact hs
  | cons p ps ih =>
      simp only [bodyLoop] at h
      cases hc : bodyContains bd p.name with
      | error e => rw [hc] at h; simp at h
      | ok b =>
          rw [hc] at h
          cases b with
          | true =>
              cases hi : bodyIndex bd p.name with
              | error e => rw [hi] at h; simp at h
              | ok v =>
                  rw [hi] at h
                  exact ih _ h (setP_isSome _ _ _ _ hs)
          | false =>
              by_cases hcond : p.required = false ∧ p.default.isNull = false
              · rw [if_pos hcond] at h
                exact ih _ h (setP_isSome _ _ _ _ hs)
              · rw [if_neg hcond] at h
                exact ih _ h hs

theorem bodyLoop_null_src (ps : List ParameterConfig) (bd : PyVal) (m m2 : Params) (k : String)
    (h : bodyLoop ps bd m = .ok m2) (hn : getP m2 k = some PyVal.null) :
    getP m k = some PyVal.null ∨ bodyIndex bd k = .ok PyVal.null := by
  induction ps generalizing m with
  | nil =>
      simp only [bodyLoop] at h
      injection h with h2
      rw [← h2] at hn
      exact Or.inl hn
  | cons p ps ih =>
      simp only [bodyLoop] at h
      cases hc : bodyContains bd p.name with
      | error e => rw [hc] at h; simp at h
      | ok b =>
          rw [hc] at h
          cases b with
          | true =>
              cases hi : bodyIndex bd p.name with
              | error e => rw [hi] at h; simp at h
              | ok v =>
                  rw [hi] at h
                  rcases ih _ h with h2 | h2
                  · rw [getP_setP] at h2
                    by_cases hk : p.name = k
                    · right
                      rw [if_pos hk] at h2
                      injection h2 with h3
                      rw [← hk, hi, h3]
                    · rw [if_neg hk] at h2; exact Or.inl h2
                  · exact Or.inr h2
          | false =>
              by_cases hcond : p.required = false ∧ p.default.isNull = false
              · rw [if_pos hcond] at h
                rcases ih _ h with h2 | h2
                · rw [getP_setP] at h2
                  by_cases hk : p.name = k
                  · rw [if_pos hk] at h2
                    injection h2 with h3
                    rw [h3] at hcond
                    simp [PyVal.isNull] at hcond
                  · rw [if_neg hk] at h2; exact Or.inl h2
                · exact Or.inr h2
              · rw [if_neg hcond] at h
                exact ih _ h

theorem bodyLoop_skip (ps : List ParameterConfig) (bd : PyVal) (m m2 : Params) (k : String)
    (hn : ∀ p2 ∈ ps, p2.name ≠ k) (h : bodyLoop ps bd m = .ok m2) :
    getP m2 k = getP m k := by
  induction ps generalizing m with
  | nil =>
      simp only [bodyLoop] at h
      injection h with h2
      rw [← h2]
  | cons p ps ih =>
      simp only [bodyLoop] at h
      have hp : p.name ≠ k := hn p (List.mem_cons_self p ps)
      have ht : ∀ p2 ∈ ps, p2.name ≠ k := fun q hq => hn q (List.mem_cons_of_mem _ hq)
      cases hc : bodyContains bd p.name with
      | error e => rw [hc] at h; simp at h
      | ok b =>
          rw [hc] at h
          cases b with
          | true =>
              cases hi : bodyIndex bd p.name with
              | error e => rw [hi] at h; simp at h
              | ok v =>
                  rw [hi] at h
                  rw [ih _ ht h, getP_setP, if_neg hp]
          | false =>
              by_cases hcond : p.required = false ∧ p.default.isNull = false
              · rw [if_pos hcond] at h
                rw [ih _ ht h, getP_setP, if_neg hp]
              · rw [if_neg hcond] at h
                exact ih _ ht h

theorem bodyStep_mono (ps : List ParameterConfig) (body : String) (m m2 : Params) (k : String)
    (h : bodyStep ps body m = .ok m2) (hs : (getP m k).isSome) : (getP m2 k).isSome := by
  simp only [bodyStep] at h
  by_cases he : ps.isEmpty
  · rw [if_pos he] at h
    injection h with h2
    rw [← h2]; exact hs
  · rw [if_neg he] at h
    cases hj : pyJsonLoads body with
    | error e =>
        rw [hj] at h
        by_cases hr : ps.any (fun p => p.required)
        · simp [hr] at h
        · rw [if_neg hr] at h
          injection h with h2
          rw [← h2]; exact hs
    | ok bd =>
        rw [hj] at h
        exact bodyLoop_mono _ _ _ _ _ h hs

theorem bodyStep_null_src (ps : List ParameterConfig) (body : String) (m m2 : Params) (k : String)
    (h : bodyStep ps body m = .ok m2) (hn : getP m2 k = some PyVal.null) :
    getP m k = some PyVal.null ∨
      ∃ bd, pyJsonLoads body = .ok bd ∧ bodyIndex bd k = .ok PyVal.null := by
  simp only [bodyStep] at h
  by_cases he : ps.isEmpty
  · rw [if_pos he] at h
    injection h with h2
    rw [← h2] at hn
    exact Or.inl hn
  · rw [if_neg he] at h
    cases hj : pyJsonLoads body with
    | error e =>
        rw [hj] at h
        by_cases hr : ps.any (fun p => p.required)
        · simp [hr] at h
        · rw [if_neg hr] at h
          injection h with h2
          rw [← h2] at hn
          exact Or.inl hn
    | ok bd =>
        rw [hj] at h
        rcases bodyLoop_null_src _ _ _ _ _ h hn with h2 | h2
        · exact Or.inl h2
        · exact Or.inr ⟨bd, rfl, h2⟩

theorem bodyStep_skip (ps : List ParameterConfig) (body : String) (m m2 : Params) (k : String)
    (hn : ∀ p2 ∈ ps, p2.name ≠ k) (h : bodyStep ps body m = .ok m2) :
    getP m2 k = getP m k := by
  simp only [bodyStep] at h
  by_cases he : ps.isEmpty
  · rw [if_pos he] at h
    injection h with h2
    rw [← h2]
  · rw [if_neg he] at h
    cases hj : pyJsonLoads body with
    | error e =>
        rw [hj] at h
        by_cases hr : ps.any (fun p => p.required)
        · simp [hr] at h
        · rw [if_neg hr] at h
          injection h with h2
          rw [← h2]
    | ok bd =>
        rw [hj] at h
        exact bodyLoop_skip _ _ _ _ _ hn h

theorem defaultsStep_preserve (ps : List ParameterConfig) (m : Params) (k : String) (v : PyVal)
    (h : getP m k = some v) : getP (defaultsStep ps m) k = some v := by
  induction ps generalizing m with
  | nil => simpa [defaultsStep] using h
  | cons p ps ih =>
      simp only [defaultsStep]
      by_cases hcond : (getP m p.name).isNone ∧ p.required = false ∧ p.default.isNull = false
      · rw [if_pos hcond]
        have hk : p.name ≠ k := by
          intro he
          rw [he, h] at hcond
          simp at hcond
        exact ih _ (by rw [getP_setP, if_neg hk]; exact h)
      · rw [if_neg hcond]
        exact ih _ h

theorem defaultsStep_null_src (ps : List ParameterConfig) (m : Params) (k : String)
    (h : getP (defaultsStep ps m) k = some PyVal.null) : getP m k = some PyVal.null := by
  induction ps generalizing m with
  | nil => simpa [defaultsStep] using h
  | cons p ps ih =>
      simp only [defaultsStep] at h
      by_cases hcond : (getP m p.name).isNone ∧ p.required = false ∧ p.default.isNull = false
      · rw [if_pos hcond] at h
        have h2 := ih _ h
        rw [getP_setP] at h2
        by_cases hk : p.name = k
        · rw [if_pos hk] at h2
          injection h2 with h3
          rw [h3] at hcond
          simp [PyVal.isNull] at hcond
        · rw [if_neg hk] at h2; exact h2
      · rw [if_neg hcond] at h
        exact ih _ h

theorem defaultsStep_complete (ps : List ParameterConfig) (m : Params) (p : ParameterConfig)
    (hp : p ∈ ps) (hr : p.required = false) (hd : p.default.isNull = false) :
    (getP (defaultsStep ps m) p.name).isSome := by
  induction ps generalizing m with
  | nil => cases hp
  | cons p1 ps ih =>
      simp only [defaultsStep]
      rcases List.mem_cons.mp hp with h1 | h1
      · subst h1
        by_cases hcond : (getP m p.name).isNone ∧ p.required = false ∧ p.default.isNull = false
        · rw [if_pos hcond]
          have := defaultsStep_preserve ps (setP m p.name p.default) p.name p.default
            (by rw [getP_setP_self])
          rw [this]; rfl
        · rw [if_neg hcond]
          have hsome : (getP m p.name).isSome := by
            by_cases hs : (getP m p.name).isNone
            · exact absurd ⟨hs, hr, hd⟩ hcond
            · cases hx : getP m p.name with
              | none => rw [hx] at hs; simp at hs
              | some v => rfl
          cases hx : getP m p.name with
          | none => rw [hx] at hsome; cases hsome
          | some v =>
              rw [defaultsStep_preserve ps m p.name v hx]; rfl
      · by_cases hcond : (getP m p1.name).isNone ∧ p1.required = false ∧ p1.default.isNull = false
        · rw [if_pos hcond]; exact ih _ h1
        · rw [if_neg hcond]; exact ih _ h1

theorem resolveParams_ok_elim (cfg : RouteConfig) (kw : Params) (body : String) (m : Params)
    (h : resolveParams cfg kw body = .ok m) :
    ∃ m3,
      bodyStep (cfg.parameters.filter (fun p => decide (p.location = PLoc.body))) body
          (addFromKwargs (cfg.parameters.filter (fun p => decide (p.location = PLoc.query))) kw
            (addFromKwargs (cfg.parameters.filter (fun p => decide (p.location = PLoc.path))) kw []))
        = .ok m3
      ∧ m = defaultsStep cfg.parameters m3 := by
  simp only [resolveParams] at h
  cases hbs : bodyStep (cfg.parameters.filter (fun p => decide (p.location = PLoc.body))) body
      (addFromKwargs (cfg.parameters.filter (fun p => decide (p.location = PLoc.query))) kw
        (addFromKwargs (cfg.parameters.filter (fun p => decide (p.location = PLoc.path))) kw [])) with
  | error e => rw [hbs] at h; simp at h
  | ok m3 =>
      rw [hbs] at h
      injection h with h2
      exact ⟨m3, rfl, h2.symm⟩

theorem fastapiKwargs_ok_elim (cfg : RouteConfig) (req : RequestInput) (kw : Params)
    (h : fastapiKwargs cfg req = .ok kw) :
    ∃ a,
      kwargsAddQuery (cfg.parameters.filter (fun p => decide (p.location = PLoc.query)))
          req.queryVals [] = .ok a
      ∧ kwargsAddPath (cfg.parameters.filter (fun p => decide (p.location = PLoc.path)))
          req.pathVals a = .ok kw := by
  simp only [fastapiKwargs] at h
  cases hq : kwargsAddQuery (cfg.parameters.filter (fun p => decide (p.location = PLoc.query)))
      req.queryVals [] with
  | error e => rw [hq] at h; simp at h
  | ok a =>
      rw [hq] at h
      exact ⟨a, rfl, h⟩

theorem defaultsStep_mono (ps : List ParameterConfig) (m : Params) (k : String)
    (h : (getP m k).isSome) : (getP (defaultsStep ps m) k).isSome := by
  cases hx : getP m k with
  | none => rw [hx] at h; cases h
  | some v => rw [defaultsStep_preserve ps m k v hx]; rfl

/-- C1 (amended).  What the resolver actually guarantees about the
`all_params` set it hands to validation and rendering: every path- or
query-located field is present — the generated signature supplies even an
omitted optional query field, as its configured default, which is `None`
when no default is configured; every optional field with a configured
non-null default is present; the resolver's own default-population steps
never write a null, so an entry holds null exactly when the framework
passed null for it or the request body supplied an explicit JSON null; and
an omitted optional query field with no configured default is present with
value null rather than absent.  The original "never present-with-null"
clause of the claim is therefore false, and a required body field may still
be absent (no clause below forces it). -/
theorem C1_resolved_set_population (cfg : RouteConfig) (req : RequestInput) (kw m : Params)
    (hkw : fastapiKwargs cfg req = .ok kw)
    (hres : resolveParams cfg kw req.body = .ok m) :
    (∀ p ∈ cfg.parameters, p.location ≠ PLoc.body → (getP m p.name).isSome)
    ∧ (∀ p ∈ cfg.parameters, p.required = false → p.default.isNull = false →
        (getP m p.name).isSome)
    ∧ (∀ k, getP m k = some PyVal.null →
        getP kw k = some PyVal.null ∨
          ∃ bd, pyJsonLoads req.body = .ok bd ∧ bodyIndex bd k = .ok PyVal.null)
    ∧ (∀ l1 p l2, cfg.parameters = l1 ++ p :: l2 →
        (∀ p2 ∈ l1 ++ l2, p2.name ≠ p.name) →
        p.location = PLoc.query → p.required = false → p.default = PyVal.null →
        getP req.queryVals p.name = none →
        getP m p.name = some PyVal.null) := by
  obtain ⟨a, hq, hpth⟩ := fastapiKwargs_ok_elim cfg req kw hkw
  obtain ⟨m3, hbs, hm⟩ := resolveParams_ok_elim cfg kw req.body m hres
  have hkw_q : ∀ p ∈ cfg.parameters.filter (fun p2 => decide (p2.location = PLoc.query)),
      (getP kw p.name).isSome := fun p hp2 =>
    kwargsAddPath_mono _ _ _ _ _ hpth (kwargsAddQuery_present _ _ _ _ p hp2 hq)
  have hkw_p : ∀ p ∈ cfg.parameters.filter (fun p2 => decide (p2.location = PLoc.path)),
      (getP kw p.name).isSome := fun p hp2 =>
    kwargsAddPath_present _ _ _ _ p hp2 hpth
  refine ⟨?_, ?_, ?_, ?_⟩
  · intro p hp hloc
    rw [hm]
    apply defaultsStep_mono
    apply bodyStep_mono _ _ _ _ _ hbs
    cases hl : p.location with
    | body => exact absurd hl hloc
    | query =>
        have hmem : p ∈ cfg.parameters.filter (fun p2 => decide (p2.location = PLoc.query)) :=
          List.mem_filter.mpr ⟨hp, by simp [hl]⟩
        exact addFromKwargs_present _ _ _ p hmem (hkw_q p hmem)
    | path =>
        have hmem : p ∈ cfg.parameters.filter (fun p2 => decide (p2.location = PLoc.path)) :=
          List.mem_filter.mpr ⟨hp, by simp [hl]⟩
        exact addFromKwargs_mono _ _ _ _
          (addFromKwargs_present _ _ _ p hmem (hkw_p p hmem))
  · intro p hp hr hd
    rw [hm]
    exact defaultsStep_complete _ _ p hp hr hd
  · intro k hk
    rw [hm] at hk
    have h3 := defaultsStep_null_src _ _ _ hk
    rcases bodyStep_null_src _ _ _ _ _ hbs h3 with h4 | h4
    · rcases addFromKwargs_src _ _ _ _ _ h4 with h5 | h5
      · rcases addFromKwargs_src _ _ _ _ _ h5 with h6 | h6
        · simp [getP] at h6
        · exact Or.inl h6
      · exact Or.inl h5
    · exact Or.inr h4
  · intro l1 p l2 hsplit hnames hloc hreq hdef hqv
    have hq_true : (fun p2 : ParameterConfig => decide (p2.location = PLoc.query)) p = true := by
      simp [hloc]
    have hqsplit : cfg.parameters.filter (fun p2 => decide (p2.location = PLoc.query))
        = l1.filter (fun p2 => decide (p2.location = PLoc.query))
          ++ p :: l2.filter (fun p2 => decide (p2.location = PLoc.query)) := by
      rw [hsplit, List.filter_append]
      simp [List.filter_cons, hq_true]
    have hl2names : ∀ p2 ∈ l2.filter (fun p2 => decide (p2.location = PLoc.query)),
        p2.name ≠ p.name := fun p2 h2 =>
      hnames p2 (List.mem_append.mpr (Or.inr (List.mem_of_mem_filter h2)))
    have hl1l2names : ∀ p2 ∈ (l1.filter (fun p2 => decide (p2.location = PLoc.query)))
        ++ (l2.filter (fun p2 => decide (p2.location = PLoc.query))), p2.name ≠ p.name := by
      intro p2 h2
      rcases List.mem_append.mp h2 with h3 | h3
      · exact hnames p2 (List.mem_append.mpr (Or.inl (List.mem_of_mem_filter h3)))
      · exact hnames p2 (List.mem_append.mpr (Or.inr (List.mem_of_mem_filter h3)))
    have hppsnames : ∀ p2 ∈ cfg.parameters.filter (fun p2 => decide (p2.location = PLoc.path)),
        p2.name ≠ p.name := by
      intro p2 h2
      have h3 := List.mem_filter.mp h2
      rw [hsplit] at h3
      rcases List.mem_append.mp h3.1 with h4 | h4
      · exact hnames p2 (List.mem_append.mpr (Or.inl h4))
      · rcases List.mem_cons.mp h4 with h5 | h5
        · exfalso
          have := h3.2
          rw [h5, hloc] at this
          simp at this
        · exact hnames p2 (List.mem_append.mpr (Or.inr h5))
    have hbpsnames : ∀ p2 ∈ cfg.parameters.filter (fun p2 => decide (p2.location = PLoc.body)),
        p2.name ≠ p.name := by
      intro p2 h2
      have h3 := List.mem_filter.mp h2
      rw [hsplit] at h3
      rcases List.mem_append.mp h3.1 with h4 | h4
      · exact hnames p2 (List.mem_append.mpr (Or.inl h4))
      · rcases List.mem_cons.mp h4 with h5 | h5
        · exfalso
          have := h3.2
          rw [h5, hloc] at this
          simp at this
        · exact hnames p2 (List.mem_append.mpr (Or.inr h5))
    have ha_null : getP a p.name = some PyVal.null := by
      rw [hqsplit] at hq
      have := kwargsAddQuery_null _ _ p _ _ _ hl2names hqv hreq hq
      rw [hdef] at this
      exact this
    have hkw_null : getP kw p.name = some PyVal.null := by
      rw [kwargsAddPath_skip _ _ _ _ _ hppsnames hpth]
      exact ha_null
    have hm2_null :
        getP (addFromKwargs (cfg.parameters.filter (fun p2 => decide (p2.location = PLoc.query))) kw
          (addFromKwargs (cfg.parameters.filter (fun p2 => decide (p2.location = PLoc.path))) kw []))
          p.name = some PyVal.null := by
      rw [hqsplit]
      exact addFromKwargs_sets _ _ p _ _ _ hl2names hkw_null
    have hm3_null : getP m3 p.name = some PyVal.null := by
      rw [bodyStep_skip _ _ _ _ _ hbpsnames hbs]
      exact hm2_null
    rw [hm]
    exact defaultsStep_preserve _ _ _ _ hm3_null

/-- An optional integer query parameter with no configured default. -/
def pOptBrightness : ParameterConfig :=
  { name := "brightness", type := PType.integer, required := false, location := PLoc.query }

/-- A route declaring only the optional query parameter above. -/
def cfgOptQuery : RouteConfig :=
  { path := "/t", mqtt_topic := "t", parameters := [pOptBrightness],
    payload_template := "\x7b\x7d" }

/-- A request that omits the optional query parameter. -/
def reqOptQuery : RequestInput :=
  { pathVals := [], queryVals := [], body := "", nowStr := "" }

/-- C1 (counterexample): the resolver produces a set in which the optional
`brightness` entry is present with value null — an omitted optional query
parameter with no configured default is passed as `None` by the generated
signature and copied into the set, so the claim's present-with-null
prohibition fails. -/
theorem C1_null_entry_counterexample :
    pOptBrightness.required = false ∧ pOptBrightness.default = PyVal.null ∧
    fastapiKwargs cfgOptQuery reqOptQuery = .ok [("brightness", PyVal.null)] ∧
    resolveParams cfgOptQuery [("brightness", PyVal.null)] reqOptQuery.body
      = .ok [("brightness", PyVal.null)] ∧
    getP [("brightness", PyVal.null)] "brightness" = some PyVal.null :=
  ⟨rfl, rfl, rfl, rfl, rfl⟩

/-- Witness for the amended C1 theorem at the concrete omitted-optional
request: its resolver facts hold on the concrete set. -/
theorem C1_resolved_set_population_witness :
    fastapiKwargs cfgOptQuery reqOptQuery = .ok [("brightness", PyVal.null)]
    ∧ resolveParams cfgOptQuery [("brightness", PyVal.null)] reqOptQuery.body
        = .ok [("brightness", PyVal.null)]
    ∧ getP [("brightness", PyVal.null)] "brightness" = some PyVal.null := by
  refine ⟨rfl, rfl, ?_⟩
  exact (C1_resolved_set_population cfgOptQuery reqOptQuery
      [("brightness", PyVal.null)] [("brightness", PyVal.null)] rfl rfl).2.2.2
    [] pOptBrightness [] rfl (by intro p2 h2; simp at h2) rfl rfl rfl rfl

/-- A required body-located string parameter named `x`. -/
def pBodyX : ParameterConfig :=
  { name := "x", type := PType.string, required := true, location := PLoc.body }

/-- A route requiring body parameter `x` whose topic never references it. -/
def cfgBodyReq : RouteConfig :=
  { path := "/t", mqtt_topic := "fixed/topic", parameters := [pBodyX],
    payload_template := "\x7b\"msg\": \"\x7b\x7bx\x7d\x7d\"\x7d" }

/-- A request whose body is the valid but empty JSON object. -/
def reqEmptyObj : RequestInput :=
  { pathVals := [], queryVals := [], body := "\x7b\x7d", nowStr := "" }

/-- C2 (counterexample): required body parameter `x` is absent from the
valid JSON body, yet the dispatcher publishes: the resolved set lacks `x`,
the topic has no placeholder to trip the KeyError handler, the undefined
name renders as the empty string, and the payload is handed to the
broker with a 200-class response. -/
theorem C2_missing_required_published_counterexample :
    pBodyX.required = true ∧
    resolveParams cfgBodyReq [] reqEmptyObj.body = .ok [] ∧
    getP [] pBodyX.name = none ∧
    handle cfgBodyReq reqEmptyObj none =
      ⟨.ok ⟨"fixed/topic", PyVal.dict [("msg", PyVal.str "")]⟩,
       [⟨"fixed/topic", "\x7b\"msg\": \"\"\x7d", 0, false⟩]⟩ :=
  ⟨rfl, rfl, rfl, rfl⟩

/-- C2 (amended): a missing required parameter is caught only through topic
rendering.  When some required schema entry is unpopulated and topic
formatting raises a missing replacement key `n`, the dispatcher fails with
the 400 client error naming `n` and nothing is published; when the topic
template does not reference the missing name, the pipeline continues and
may publish (the counterexample). -/
theorem C2_missing_required_via_topic (cfg : RouteConfig) (req : RequestInput)
    (pubFail : Option String) (kw m : Params) (n : String)
    (hkw : fastapiKwargs cfg req = .ok kw)
    (hres : resolveParams cfg kw req.body = .ok m)
    (_hmiss : ∃ p ∈ cfg.parameters, p.required = true ∧ getP m p.name = none)
    (hval : validateParams cfg.parameters m = .ok ())
    (hfmt : strFormat cfg.mqtt_topic m = .error (.keyError n)) :
    (handle cfg req pubFail).response
      = .error ⟨400, "Missing required parameter: \x27" ++ n ++ "\x27"⟩
    ∧ (handle cfg req pubFail).published = [] := by
  simp only [handle, hkw, preparePublish, hres, hval, renderSteps, hfmt]
  exact ⟨trivial, trivial⟩

/-- A route requiring body parameter `x` whose topic does reference it. -/
def cfgBodyReqTopic : RouteConfig :=
  { path := "/t", mqtt_topic := "dev/\x7bx\x7d", parameters := [pBodyX],
    payload_template := "\x7b\x7d" }

/-- Witness for the amended C2 theorem: the concrete missing-required
request against a topic that references the name yields the 400 and no
publish. -/
theorem C2_missing_required_via_topic_witness :
    (handle cfgBodyReqTopic reqEmptyObj none).response
      = .error ⟨400, "Missing required parameter: \x27x\x27"⟩
    ∧ (handle cfgBodyReqTopic reqEmptyObj none).published = [] := by
  exact C2_missing_required_via_topic cfgBodyReqTopic reqEmptyObj none [] [] "x"
    rfl rfl ⟨pBodyX, List.mem_cons_self pBodyX [], rfl, rfl⟩ rfl rfl

/-- A route whose topic references a placeholder that is not a parameter. -/
def cfgTopicFoo : RouteConfig :=
  { path := "/t", mqtt_topic := "dev/\x7bfoo\x7d", parameters := [],
    payload_template := "\x7b\x7d" }

/-- A request with no parameters, no query and no body. -/
def reqPlain : RequestInput :=
  { pathVals := [], queryVals := [], body := "", nowStr := "" }

/-- C3 (counterexample): an unresolved topic placeholder is surfaced as a
client-class 400 response (through the KeyError handler), not the
server-class error the claim states. -/
theorem C3_unresolved_placeholder_counterexample :
    (handle cfgTopicFoo reqPlain none).response
      = .error ⟨400, "Missing required parameter: \x27foo\x27"⟩ ∧
    (400 : Nat) ≠ 500 :=
  ⟨rfl, by decide⟩

/-- C3 (amended): a topic placeholder missing from the resolved set makes
topic rendering raise `KeyError`, which the endpoint maps to the
client-class 400 response `Missing required parameter: <name>` — not a
500 — and nothing is published. -/
theorem C3_unresolved_placeholder_client_error (cfg : RouteConfig) (req : RequestInput)
    (pubFail : Option String) (kw m : Params) (n : String)
    (hkw : fastapiKwargs cfg req = .ok kw)
    (hres : resolveParams cfg kw req.body = .ok m)
    (hval : validateParams cfg.parameters m = .ok ())
    (hfmt : strFormat cfg.mqtt_topic m = .error (.keyError n)) :
    (handle cfg req pubFail).response
      = .error ⟨400, "Missing required parameter: \x27" ++ n ++ "\x27"⟩
    ∧ (handle cfg req pubFail).published = []
    ∧ (400 : Nat) ≠ 500 := by
  simp only [handle, hkw, preparePublish, hres, hval, renderSteps, hfmt]
  exact ⟨trivial, trivial, by decide⟩

/-- Witness for the amended C3 theorem at the concrete unreferenced
placeholder route. -/
theorem C3_unresolved_placeholder_client_error_witness :
    (handle cfgTopicFoo reqPlain none).response
      = .error ⟨400, "Missing required parameter: \x27foo\x27"⟩
    ∧ (handle cfgTopicFoo reqPlain none).published = [] := by
  have h := C3_unresolved_placeholder_client_error cfgTopicFoo reqPlain none [] [] "foo"
    rfl rfl rfl rfl
  exact ⟨h.1, h.2.1⟩

/-- C4: a dispatch that fails before the publish step hands nothing to the
broker: whether the framework gate rejects the request, or resolution,
validation, topic or payload rendering, or payload JSON validation fails,
the list of publish calls is empty. -/
theorem C4_no_publish_on_early_failure :
    (∀ cfg req pubFail e, fastapiKwargs cfg req = .error e →
        (handle cfg req pubFail).published = [])
    ∧ (∀ cfg req pubFail kw e, fastapiKwargs cfg req = .ok kw →
        preparePublish cfg kw req.body req.nowStr = .error e →
        (handle cfg req pubFail).published = []) := by
  constructor
  · intro cfg req pubFail e h
    simp [handle, h]
  · intro cfg req pubFail kw e h1 h2
    simp [handle, h1, h2]

/-- A required string query parameter constrained to two scene names. -/
def pScene : ParameterConfig :=
  { name := "scene", type := PType.string, required := true, location := PLoc.query,
    enum := some ["morning", "evening"] }

/-- The automation-trigger style route guarded by the scene enum. -/
def cfgScene : RouteConfig :=
  { path := "/t", method := .GET, mqtt_topic := "test/automation/scene",
    parameters := [pScene],
    payload_template := "\x7b\"scene\": \"\x7b\x7bscene\x7d\x7d\"\x7d" }

/-- A request supplying the invalid scene value. -/
def reqScene : RequestInput :=
  { pathVals := [], queryVals := [("scene", PyVal.str "invalid")], body := "", nowStr := "" }

/-- Witness for C4: the enum-mismatch scenario fails at validation with the
422 and the broker receives nothing. -/
theorem C4_no_publish_on_early_failure_witness :
    preparePublish cfgScene [("scene", PyVal.str "invalid")] reqScene.body reqScene.nowStr
      = .error ⟨422, "Invalid value for scene. Allowed values: morning, evening"⟩
    ∧ (handle cfgScene reqScene none).published = [] := by
  refine ⟨rfl, ?_⟩
  exact C4_no_publish_on_early_failure.2 cfgScene reqScene none
    [("scene", PyVal.str "invalid")] _ rfl rfl

/-- A required boolean query parameter named `flag`. -/
def pFlagC5 : ParameterConfig :=
  { name := "flag", type := PType.boolean, required := true, location := PLoc.query }

/-- A route substituting the boolean directly after a colon with no space. -/
def cfgBoolNoSpace : RouteConfig :=
  { path := "/t", mqtt_topic := "t", parameters := [pFlagC5],
    payload_template := "\x7b\"a\":\x7b\x7bflag\x7d\x7d\x7d" }

/-- A request supplying `flag=true`. -/
def reqBoolC5 : RequestInput :=
  { pathVals := [], queryVals := [("flag", PyVal.bool true)], body := "", nowStr := "" }

/-- C5 (evaluating the code at the failing input): a boolean substituted
where no colon-space precedes it stays capitalized — the template renders
to `\x7b"a":True\x7d`, the fix-up leaves the text unchanged because it only
rewrites the exact `: True` sequence, JSON validation of the payload fails,
and the request errors with a 500 instead of publishing lowercase JSON. -/
theorem C5_capitalized_boolean_at_failing_input :
    jinjaRender cfgBoolNoSpace.payload_template [("flag", PyVal.bool true)] ""
      = .ok "\x7b\"a\":True\x7d" ∧
    fixBooleans "\x7b\"a\":True\x7d" = "\x7b\"a\":True\x7d" ∧
    (handle cfgBoolNoSpace reqBoolC5 none).response = .error ⟨500,
      "Invalid JSON in payload template: Expecting value: line 1 column 6 (char 5)"⟩ ∧
    (handle cfgBoolNoSpace reqBoolC5 none).published = [] :=
  ⟨rfl, rfl, rfl, rfl⟩

/-- A second failing route, identical except for a longer key, so the JSON
decoder reports a different offset. -/
def cfgBoolNoSpaceB : RouteConfig :=
  { path := "/t", mqtt_topic := "t", parameters := [pFlagC5],
    payload_template := "\x7b\"ab\":\x7b\x7bflag\x7d\x7d\x7d" }

/-- A request supplying `flag=true` for the C6 scenarios. -/
def reqBoolC6 : RequestInput :=
  { pathVals := [], queryVals := [("flag", PyVal.bool true)], body := "", nowStr := "" }

/-- C6 (counterexample): the 500 returned for a payload that fails JSON
validation embeds the decoder's message — two routes differing only in
their template produce two different response details, so the
template-level detail is included in the response rather than kept
server-side behind an opaque message. -/
theorem C6_detail_not_opaque_counterexample :
    (handle cfgBoolNoSpace reqBoolC6 none).response = .error ⟨500,
      "Invalid JSON in payload template: Expecting value: line 1 column 6 (char 5)"⟩ ∧
    (handle cfgBoolNoSpaceB reqBoolC6 none).response = .error ⟨500,
      "Invalid JSON in payload template: Expecting value: line 1 column 7 (char 6)"⟩ ∧
    ("Invalid JSON in payload template: Expecting value: line 1 column 6 (char 5)" : String)
      ≠ "Invalid JSON in payload template: Expecting value: line 1 column 7 (char 6)" :=
  ⟨rfl, rfl, by decide⟩

/-- C6 (amended): server-class failures return status 500 with a detail
string that interpolates the underlying exception text rather than an
opaque fixed message: a payload failing JSON validation yields
`Invalid JSON in payload template: <decoder message>`, and a failing
publish call yields `Internal error: <exception message>`. -/
theorem C6_server_error_detail :
    (∀ (cfg : RouteConfig) (req : RequestInput) (pubFail : Option String)
        (kw m : Params) (topic rendered msg : String),
      fastapiKwargs cfg req = .ok kw →
      resolveParams cfg kw req.body = .ok m →
      validateParams cfg.parameters m = .ok () →
      strFormat cfg.mqtt_topic m = .ok topic →
      jinjaRender cfg.payload_template m req.nowStr = .ok rendered →
      pyJsonLoadsMsg (fixBooleans rendered) = .error msg →
      (handle cfg req pubFail).response
        = .error ⟨500, "Invalid JSON in payload template: " ++ msg⟩)
    ∧ (∀ (cfg : RouteConfig) (req : RequestInput) (pmsg : String)
        (kw : Params) (out : String × String × PyVal),
      fastapiKwargs cfg req = .ok kw →
      preparePublish cfg kw req.body req.nowStr = .ok out →
      (handle cfg req (some pmsg)).response
        = .error ⟨500, "Internal error: " ++ pmsg⟩) := by
  constructor
  · intro cfg req pubFail kw m topic rendered msg hkw hres hval hfmt hj hparse
    simp [handle, hkw, preparePublish, hres, hval, renderSteps, hfmt, hj, hparse]
  · intro cfg req pmsg kw out hkw hprep
    simp [handle, hkw, hprep]

/-- A route that renders a valid payload, for the publish-failure case. -/
def cfgPubOk : RouteConfig :=
  { path := "/t", mqtt_topic := "t", parameters := [],
    payload_template := "\x7b\"v\": 1\x7d" }

/-- Witness for the amended C6 theorem: the concrete JSON-validation
failure carries the decoder text, and a concrete publish failure carries
the exception text. -/
theorem C6_server_error_detail_witness :
    (handle cfgBoolNoSpace reqBoolC6 none).response = .error ⟨500,
      "Invalid JSON in payload template: Expecting value: line 1 column 6 (char 5)"⟩
    ∧ (handle cfgPubOk reqPlain (some "broker unavailable")).response
        = .error ⟨500, "Internal error: broker unavailable"⟩ := by
  constructor
  · exact C6_server_error_detail.1 cfgBoolNoSpace reqBoolC6 none
      [("flag", PyVal.bool true)] [("flag", PyVal.bool true)] "t" "\x7b\"a\":True\x7d"
      "Expecting value: line 1 column 6 (char 5)" rfl rfl rfl rfl rfl rfl
  · exact C6_server_error_detail.2 cfgPubOk reqPlain "broker unavailable" []
      ("t", "\x7b\"v\": 1\x7d", PyVal.dict [("v", PyVal.int 1)]) rfl rfl

theorem buildRoutes_all_ok (rs : List RouteConfig) (acc : List RegisteredRoute)
    (h : ∀ r ∈ rs, ∃ reg, createRoute r = .ok reg) :
    (buildRoutes rs acc).2 = none ∧ (buildRoutes rs acc).1.length = acc.length + rs.length := by
  induction rs generalizing acc with
  | nil => simp [buildRoutes]
  | cons r rs ih =>
      obtain ⟨reg, hr⟩ := h r (List.mem_cons_self r rs)
      simp only [buildRoutes, hr]
      have h2 := ih (acc ++ [reg]) (fun q hq => h q (List.mem_cons_of_mem _ hq))
      refine ⟨h2.1, ?_⟩
      rw [h2.2]
      simp [List.length_append]
      omega

theorem buildRoutes_abort (pre post : List RouteConfig) (bad : RouteConfig) (msg : String)
    (acc : List RegisteredRoute)
    (hpre : ∀ r ∈ pre, ∃ reg, createRoute r = .ok reg)
    (hbad : createRoute bad = .error msg) :
    (buildRoutes (pre ++ bad :: post) acc).2 = some msg ∧
    (buildRoutes (pre ++ bad :: post) acc).1.length = acc.length + pre.length := by
  induction pre generalizing acc with
  | nil => simp [buildRoutes, hbad]
  | cons r pre ih =>
      obtain ⟨reg, hr⟩ := hpre r (List.mem_cons_self r pre)
      simp only [List.cons_append, buildRoutes, hr, List.append_eq]
      have h2 := ih (acc ++ [reg]) (fun q hq => hpre q (List.mem_cons_of_mem _ hq))
      refine ⟨h2.1, ?_⟩
      rw [h2.2]
      simp [List.length_append]
      omega

/-- C7 (amended): route registration performs no duplicate detection — a
configuration whose descriptors all build registers every one of them, in
order and without error, duplicate (method, path) pairs included — and one
descriptor's failure to build aborts the loop, so none of the descriptors
after it are registered. -/
theorem C7_registration_behavior :
    (∀ rs : List RouteConfig, (∀ r ∈ rs, ∃ reg, createRoute r = .ok reg) →
        (buildRoutes rs []).2 = none ∧ (buildRoutes rs []).1.length = rs.length)
    ∧ (∀ r reg, createRoute r = .ok reg → buildRoutes [r, r] [] = ([reg, reg], none))
    ∧ (∀ pre bad post msg, (∀ r ∈ pre, ∃ reg, createRoute r = .ok reg) →
        createRoute bad = .error msg →
        (buildRoutes (pre ++ bad :: post) []).2 = some msg ∧
        (buildRoutes (pre ++ bad :: post) []).1.length = pre.length) := by
  refine ⟨?_, ?_, ?_⟩
  · intro rs h
    have h2 := buildRoutes_all_ok rs [] h
    simpa using h2
  · intro r reg hr
    simp [buildRoutes, hr]
  · intro pre bad post msg hpre hbad
    have h2 := buildRoutes_abort pre post bad msg [] hpre hbad
    simpa using h2

/-- Two distinct route descriptors sharing the same (method, path) pair. -/
def routeDupA : RouteConfig :=
  { path := "/dup", method := .POST, mqtt_topic := "a", payload_template := "\x7b\x7d" }

/-- The second of the duplicate pair, with a different topic. -/
def routeDupB : RouteConfig :=
  { path := "/dup", method := .POST, mqtt_topic := "b", payload_template := "\x7b\x7d" }

/-- A descriptor whose query parameter name is not a valid Python
identifier, so signature synthesis raises during registration. -/
def routeBad : RouteConfig :=
  { path := "/bad", mqtt_topic := "t",
    parameters := [{ name := "my-param", type := PType.string }],
    payload_template := "\x7b\x7d" }

/-- A descriptor that registers without error. -/
def routeGood : RouteConfig :=
  { path := "/good", mqtt_topic := "t", payload_template := "\x7b\x7d" }

/-- C7 (counterexample): both halves of the claim fail on the code — two
descriptors with the same (method, path) pair are both registered without
any error, and a failing descriptor prevents every later descriptor from
registering. -/
theorem C7_registration_counterexample :
    routeDupA.method = routeDupB.method ∧ routeDupA.path = routeDupB.path ∧
    buildRoutes [routeDupA, routeDupB] [] =
      ([⟨HMethod.POST, "/dup", routeDupA⟩, ⟨HMethod.POST, "/dup", routeDupB⟩], none) ∧
    buildRoutes [routeBad, routeGood] []
      = ([], some "\x27my-param\x27 is not a valid parameter name") :=
  ⟨rfl, rfl, rfl, rfl⟩

/-- Witness for the amended C7 theorem at concrete inputs: the duplicate
pair registers both, and the bad-then-good list registers nothing. -/
theorem C7_registration_behavior_witness :
    buildRoutes [routeDupA, routeDupA] []
      = ([⟨HMethod.POST, "/dup", routeDupA⟩, ⟨HMethod.POST, "/dup", routeDupA⟩], none)
    ∧ (buildRoutes [routeBad, routeGood] []).2
        = some "\x27my-param\x27 is not a valid parameter name"
    ∧ (buildRoutes [routeBad, routeGood] []).1.length = 0 := by
  refine ⟨?_, ?_, ?_⟩
  · exact C7_registration_behavior.2.1 routeDupA ⟨HMethod.POST, "/dup", routeDupA⟩ rfl
  · exact (C7_registration_behavior.2.2 [] routeBad [routeGood]
      "\x27my-param\x27 is not a valid parameter name" (by intro r hr; simp at hr) rfl).1
  · exact (C7_registration_behavior.2.2 [] routeBad [routeGood]
      "\x27my-param\x27 is not a valid parameter name" (by intro r hr; simp at hr) rfl).2

theorem checkMax_facts (p : ParameterConfig) (v : PyVal) (q : ℚ)
    (hq : toRatNum v = some q) :
    (∀ mx, p.max = some mx → mx < q →
        checkMax p v = .error ⟨422, "Value for " ++ p.name ++ " must be at most " ++ floatRepr mx⟩)
    ∧ ((∀ mx, p.max = some mx → q ≤ mx) → checkMax p v = .ok ()) := by
  constructor
  · intro mx hmx hgt
    simp only [checkMax, hmx, hq]
    rw [if_pos hgt]
  · intro hle
    cases hmx : p.max with
    | none => simp [checkMax, hmx]
    | some mx =>
        simp only [checkMax, hmx, hq]
        rw [if_neg (not_lt.mpr (hle mx hmx))]

/-- C8: for a populated parameter declared integer or float (with no enum
constraint, which is checked first) carrying a numerically comparable
value, the configured bounds are inclusive: a value strictly below `min`
fails with the 422 naming the field and the bound, a value strictly above
`max` fails likewise, and any value with `min ≤ q ≤ max` passes the
validation check applied to that entry. -/
theorem C8_inclusive_bounds (p : ParameterConfig) (v : PyVal) (q : ℚ)
    (ht : p.type = PType.integer ∨ p.type = PType.float)
    (he : p.enum = none) (hq : toRatNum v = some q) :
    (∀ mn, p.min = some mn → q < mn →
        validateOne p v
          = .error ⟨422, "Value for " ++ p.name ++ " must be at least " ++ floatRepr mn⟩)
    ∧ (∀ mx, p.max = some mx → (∀ mn, p.min = some mn → mn ≤ q) → mx < q →
        validateOne p v
          = .error ⟨422, "Value for " ++ p.name ++ " must be at most " ++ floatRepr mx⟩)
    ∧ ((∀ mn, p.min = some mn → mn ≤ q) → (∀ mx, p.max = some mx → q ≤ mx) →
        validateOne p v = .ok ()) := by
  have hbase : validateOne p v = checkBounds p v := by
    simp [validateOne, he]
  refine ⟨?_, ?_, ?_⟩
  · intro mn hmn hlt
    rw [hbase]
    simp only [checkBounds, hmn, hq]
    rw [if_pos ht, if_pos hlt]
  · intro mx hmx hminle hgt
    rw [hbase]
    cases hmn : p.min with
    | none =>
        simp only [checkBounds, hq, hmn]
        rw [if_pos ht]
        exact (checkMax_facts p v q hq).1 mx hmx hgt
    | some mn =>
        simp only [checkBounds, hq, hmn]
        rw [if_pos ht, if_neg (not_lt.mpr (hminle mn hmn))]
        exact (checkMax_facts p v q hq).1 mx hmx hgt
  · intro hminle hmaxle
    rw [hbase]
    cases hmn : p.min with
    | none =>
        simp only [checkBounds, hq, hmn]
        rw [if_pos ht]
        exact (checkMax_facts p v q hq).2 hmaxle
    | some mn =>
        simp only [checkBounds, hq, hmn]
        rw [if_pos ht, if_neg (not_lt.mpr (hminle mn hmn))]
        exact (checkMax_facts p v q hq).2 hmaxle

/-- The sensor-value style parameter with inclusive bounds 0.0 to 100.0. -/
def pValueC8 : ParameterConfig :=
  { name := "value", type := PType.float, required := true, location := PLoc.body,
    min := some 0, max := some 100 }

/-- Witness for C8 at the boundary values: exactly `min` and exactly `max`
pass, one unit outside either bound fails with the 422 naming the field. -/
theorem C8_inclusive_bounds_witness :
    validateOne pValueC8 (PyVal.float 100) = .ok ()
    ∧ validateOne pValueC8 (PyVal.float 0) = .ok ()
    ∧ validateOne pValueC8 (PyVal.float 101)
        = .error ⟨422, "Value for value must be at most 100.0"⟩
    ∧ validateOne pValueC8 (PyVal.int (-1))
        = .error ⟨422, "Value for value must be at least 0.0"⟩ := by
  refine ⟨?_, ?_, ?_, ?_⟩
  · exact (C8_inclusive_bounds pValueC8 (PyVal.float 100) 100 (Or.inr rfl) rfl rfl).2.2
      (by intro mn hmn; injection hmn with h2; rw [← h2]; norm_num)
      (by intro mx hmx; injection hmx with h2; rw [← h2])
  · exact (C8_inclusive_bounds pValueC8 (PyVal.float 0) 0 (Or.inr rfl) rfl rfl).2.2
      (by intro mn hmn; injection hmn with h2; rw [← h2])
      (by intro mx hmx; injection hmx with h2; rw [← h2]; norm_num)
  · exact (C8_inclusive_bounds pValueC8 (PyVal.float 101) 101 (Or.inr rfl) rfl rfl).2.1
      100 rfl (by intro mn hmn; injection hmn with h2; rw [← h2]; norm_num) (by norm_num)
  · exact (C8_inclusive_bounds pValueC8 (PyVal.int (-1)) (-1) (Or.inr rfl) rfl rfl).1
      0 rfl (by norm_num)

/-- C9: once `connect` has been called, `is_connected` reports true for
every later point in the manager's lifetime — `disconnect` exits the client
context but never clears the stored client object — and the health
surface's connected boolean therefore also stays true after
disconnection. -/
theorem C9_is_connected_sticky (m : MQTTManager) (ops : List MqttOp) :
    (applyMqttOps m.connect ops).isConnectedProp = true
    ∧ healthConnected (some (applyMqttOps m.connect ops)) = true := by
  have key : ∀ (ops2 : List MqttOp) (m2 : MQTTManager),
      m2.client.isSome → (applyMqttOps m2 ops2).client.isSome := by
    intro ops2
    induction ops2 with
    | nil => intro m2 h; simpa [applyMqttOps] using h
    | cons op ops2 ih =>
        intro m2 h
        cases op with
        | connect =>
            exact ih _ (by simp [applyMqttOp, MQTTManager.connect])
        | disconnect =>
            exact ih _ (by simpa [applyMqttOp, MQTTManager.disconnect] using h)
  have h2 := key ops m.connect (by simp [MQTTManager.connect])
  exact ⟨h2, by simpa [healthConnected, MQTTManager.isConnectedProp] using h2⟩

/-- The note-forwarding parameter carrying a client-chosen string. -/
def pNoteC10 : ParameterConfig :=
  { name := "note", type := PType.string, required := true, location := PLoc.query }

/-- A route quoting the note string into the payload. -/
def cfgNoteC10 : RouteConfig :=
  { path := "/t", mqtt_topic := "t", parameters := [pNoteC10],
    payload_template := "\x7b\"note\": \"\x7b\x7bnote\x7d\x7d\"\x7d" }

/-- A request whose note value contains the `: True` and `: False`
sequences inside its text. -/
def reqNoteC10 : RequestInput :=
  { pathVals := [], queryVals := [("note", PyVal.str "a: True b: False")],
    body := "", nowStr := "" }

/-- C10: the boolean fix-up is a plain text substitution over the whole
rendered payload: both colon-space sequences inside the JSON string literal
are rewritten, so the string value the broker receives differs from the
value the client supplied. -/
theorem C10_textual_substitution_alters_strings :
    getP reqNoteC10.queryVals "note" = some (PyVal.str "a: True b: False")
    ∧ fixBooleans "\x7b\"note\": \"a: True b: False\"\x7d"
        = "\x7b\"note\": \"a: true b: false\"\x7d"
    ∧ handle cfgNoteC10 reqNoteC10 none =
        ⟨.ok ⟨"t", PyVal.dict [("note", PyVal.str "a: true b: false")]⟩,
         [⟨"t", "\x7b\"note\": \"a: true b: false\"\x7d", 0, false⟩]⟩
    ∧ ("a: true b: false" : String) ≠ "a: True b: False" :=
  ⟨rfl, rfl, rfl, by decide⟩
